import Mathlib

/-!
# ai-content-processing-engine — verification of the cache-backed processing pipeline

Shallow embedding of the repository's core pipeline:

* `src/services/cache.service.js` — Redis-backed cache store (`CacheService`),
* `src/services/ai.service.js` — processing dispatcher, fingerprinting, batching (`AIService`),
* `src/utils/ai.utils.js` — `formatResponse` fence stripping, and the HTTP controller
  (`AIController.processContent` / `AIController.batchProcess`).

Modelling conventions:

* JavaScript runtime values are the inductive `JsValue`; JS numbers are idealized as
  exact rationals (`ℚ`); IEEE-754 rounding, `NaN` and `Infinity` are not modelled
  (division by zero yields `0` — no claim depends on it).
* `JSON.stringify` / `JSON.parse` are implemented concretely (`jsonStringify`,
  `jsonParse`); `crypto.createHash("md5")` is implemented bit-faithfully over the
  UTF-8 bytes of the serialization (`md5Hex`).
* The external model capability (`this.model.generateContent`) is an explicit
  function parameter `gen : GenCall → Except JsError String`, as in the spec's
  "opaque capability" treatment; client initialization is modelled as successful.
* Time is an abstract tick counter `now : Nat` passed into each entry point;
  a cache `set` stores `expiresAt = now + ttl` and a `get` sees the entry
  iff `now < expiresAt`.
* Effects (cache reads/writes, model invocations, the batch error log, inter-window
  delays) are recorded in an explicit event trace; `async`/`Promise.all` concurrency
  is determinized to in-order execution within a window, which preserves every
  claim-relevant observable (result order, fail-fast, counts of invocations).
-/

set_option maxRecDepth 4000

/-! ## JavaScript numbers

JS numbers are idealized as exact rationals. `JsNum` is a hand-rolled fraction
type (numerator, positive denominator, kept normalized by `jsNumMk`) rather than
Mathlib's `ℚ` so that every arithmetic operation reduces definitionally — the
witnesses below evaluate whole pipeline runs by `rfl`. -/

/-- Euclid's algorithm with explicit fuel (`b + 1` steps always suffice). -/
def natGcdGo : Nat → Nat → Nat → Nat
  | 0, a, _ => a
  | _ + 1, a, 0 => a
  | fuel + 1, a, b + 1 => natGcdGo fuel (b + 1) (a % (b + 1))

/-- Greatest common divisor (reduces by `rfl`, unlike `Nat.gcd` here). -/
def natGcd (a b : Nat) : Nat := natGcdGo (b + 1) a b

/-- An exact JS number: fraction with positive denominator, normalized. -/
structure JsNum where
  n : Int
  d : Nat
deriving DecidableEq, Repr

instance (k : Nat) : OfNat JsNum k := ⟨⟨k, 1⟩⟩

instance : NatCast JsNum := ⟨fun k => ⟨k, 1⟩⟩

/-- Build a normalized fraction (denominator `0` — never produced by the
pipeline — collapses to `0`). -/
def jsNumMk (n : Int) (d : Nat) : JsNum :=
  if d = 0 then ⟨0, 1⟩
  else
    let g := natGcd n.natAbs d
    ⟨Int.tdiv n g, d / g⟩

/-- Exact addition. -/
def JsNum.add (a b : JsNum) : JsNum := jsNumMk (a.n * b.d + b.n * a.d) (a.d * b.d)

/-- Exact multiplication. -/
def JsNum.mul (a b : JsNum) : JsNum := jsNumMk (a.n * b.n) (a.d * b.d)

/-- Negation. -/
def JsNum.neg (a : JsNum) : JsNum := ⟨-a.n, a.d⟩

/-- Exact division; division by zero yields `0` (JS gives `Infinity`/`NaN`,
which no claim observes). -/
def JsNum.div (a b : JsNum) : JsNum :=
  if b.n = 0 then ⟨0, 1⟩
  else if b.n < 0 then jsNumMk (-(a.n * b.d)) (a.d * b.n.natAbs)
  else jsNumMk (a.n * b.d) (a.d * b.n.natAbs)

/-- Natural powers. -/
def JsNum.powNat (a : JsNum) : Nat → JsNum
  | 0 => ⟨1, 1⟩
  | k + 1 => a.mul (a.powNat k)

/-- Integer powers (for JSON exponent notation). -/
def JsNum.zpow (a : JsNum) : Int → JsNum
  | .ofNat k => a.powNat k
  | .negSucc k => JsNum.div ⟨1, 1⟩ (a.powNat (k + 1))

/-! ## JavaScript values -/

/-- A JavaScript runtime value as the pipeline manipulates them: JSON values
plus `undefined`. Numbers are exact rationals (idealizing float64;
IEEE-754 rounding, `NaN` and `Infinity` are not modelled). -/
inductive JsValue where
  | null
  | undefined
  | bool (b : Bool)
  | num (q : JsNum)
  | str (s : String)
  | arr (elems : List JsValue)
  | obj (fields : List (String × JsValue))

/-- JS truthiness of a value (`if (v)`). -/
def JsValue.truthy : JsValue → Bool
  | .null => false
  | .undefined => false
  | .bool b => b
  | .num q => q.n != 0
  | .str s => s != ""
  | .arr _ => true
  | .obj _ => true

/-- JS `a || b`: returns `a` when truthy, otherwise `b`. -/
def jsOr (a b : JsValue) : JsValue := if a.truthy then a else b

/-- Property access `v?.k` / `v.k`: field lookup on objects (first binding wins),
`undefined` on anything else. -/
def JsValue.getProp (v : JsValue) (k : String) : JsValue :=
  match v with
  | .obj fields =>
    match fields.lookup k with
    | some w => w
    | none => .undefined
  | _ => .undefined

/-- Decimal rendering of a JS number; integers render as in JS (`150`, `-3`).
Non-integer rationals only arise in payload fields no claim inspects, so their
rendering (`n/d`) is not required to match float64 printing. -/
def numToString (q : JsNum) : String :=
  if q.d = 1 then toString q.n else toString q.n ++ "/" ++ toString q.d

mutual

/-- JS string coercion `String(v)` / template-literal interpolation. -/
def jsToStringCoerce : JsValue → String
  | .null => "null"
  | .undefined => "undefined"
  | .bool true => "true"
  | .bool false => "false"
  | .num q => numToString q
  | .str s => s
  | .arr xs => String.intercalate "," (coerceElems xs)
  | .obj _ => "[object Object]"

/-- `Array.prototype.toString` semantics: `null`/`undefined` elements render empty. -/
def coerceElems : List JsValue → List String
  | [] => []
  | .null :: xs => "" :: coerceElems xs
  | .undefined :: xs => "" :: coerceElems xs
  | x :: xs => jsToStringCoerce x :: coerceElems xs

end

/-! ## JSON.stringify -/

/-- JSON string escaping for one character, as `JSON.stringify` emits it. -/
def jsonEscapeChar (c : Char) : String :=
  if c = '"' then "\\\""
  else if c = '\\' then "\\\\"
  else if c = '\n' then "\\n"
  else if c = '\r' then "\\r"
  else if c = '\t' then "\\t"
  else if c = '\x08' then "\\b"
  else if c = '\x0c' then "\\f"
  else if c.toNat < 0x20 then
    "\\u00" ++ String.mk [Nat.digitChar (c.toNat / 16), Nat.digitChar (c.toNat % 16)]
  else String.mk [c]

/-- A JSON string literal for `s`, double-quoted and escaped. -/
def jsonEscape (s : String) : String :=
  "\"" ++ String.join (s.data.map jsonEscapeChar) ++ "\""

mutual

/-- `JSON.stringify`: `none` exactly when the value is `undefined` (whose
serialization is absent); object fields hold their insertion order, and
`undefined`-valued fields are omitted — there is no key sorting. -/
def jsonStringify : JsValue → Option String
  | .undefined => none
  | .null => some "null"
  | .bool true => some "true"
  | .bool false => some "false"
  | .num q => some (numToString q)
  | .str s => some (jsonEscape s)
  | .arr xs => some ("[" ++ String.intercalate "," (stringifyElems xs) ++ "]")
  | .obj kvs => some ("\x7b" ++ String.intercalate "," (stringifyFields kvs) ++ "\x7d")

/-- Array elements: `undefined` serializes as `null` inside arrays. -/
def stringifyElems : List JsValue → List String
  | [] => []
  | x :: xs =>
    match jsonStringify x with
    | some sx => sx :: stringifyElems xs
    | none => "null" :: stringifyElems xs

/-- Object fields, in insertion order, skipping `undefined` values. -/
def stringifyFields : List (String × JsValue) → List String
  | [] => []
  | (k, v) :: rest =>
    match jsonStringify v with
    | some sv => (jsonEscape k ++ ":" ++ sv) :: stringifyFields rest
    | none => stringifyFields rest

end

/-! ## Errors -/

/-- A thrown JavaScript `Error`, reduced to its message (the only part the
pipeline ever inspects). -/
structure JsError where
  message : String
deriving DecidableEq, Repr

/-! ## JSON.parse -/

/-- JSON whitespace. -/
def isJsonWs (c : Char) : Bool := c == ' ' || c == '\t' || c == '\n' || c == '\r'

/-- Drop leading JSON whitespace. -/
def skipJsonWs (cs : List Char) : List Char := cs.dropWhile isJsonWs

/-- Value of a hex digit, if `c` is one. -/
def hexDigitVal (c : Char) : Option Nat :=
  if '0' ≤ c && c ≤ '9' then some (c.toNat - 48)
  else if 'a' ≤ c && c ≤ 'f' then some (c.toNat - 87)
  else if 'A' ≤ c && c ≤ 'F' then some (c.toNat - 55)
  else none

/-- Single-character JSON escapes (`\"`, `\\`, `\/`, `\b`, `\f`, `\n`, `\r`, `\t`). -/
def jsonEscCode (e : Char) : Option Char :=
  if e = '"' then some '"'
  else if e = '\\' then some '\\'
  else if e = '/' then some '/'
  else if e = 'b' then some '\x08'
  else if e = 'f' then some '\x0c'
  else if e = 'n' then some '\n'
  else if e = 'r' then some '\r'
  else if e = 't' then some '\t'
  else none

/-- Parse the body of a JSON string literal (after the opening quote), returning
its characters and the remaining input. Surrogate-pair recombination of two
`\u` escapes is not modelled (no claim involves it). -/
def pJString : List Char → Option (List Char × List Char)
  | [] => none
  | '"' :: rest => some ([], rest)
  | '\\' :: 'u' :: h1 :: h2 :: h3 :: h4 :: rest =>
    match hexDigitVal h1, hexDigitVal h2, hexDigitVal h3, hexDigitVal h4 with
    | some a, some b, some c, some d =>
      (pJString rest).map (fun p => (Char.ofNat (4096 * a + 256 * b + 16 * c + d) :: p.1, p.2))
    | _, _, _, _ => none
  | '\\' :: e :: rest =>
    match jsonEscCode e with
    | some c => (pJString rest).map (fun p => (c :: p.1, p.2))
    | none => none
  | c :: rest =>
    if c.toNat < 0x20 then none
    else (pJString rest).map (fun p => (c :: p.1, p.2))

/-- Consume a run of decimal digits, accumulating value and digit count. -/
def pDigitsGo : List Char → Nat → Nat → Nat × Nat × List Char
  | [], acc, cnt => (acc, cnt, [])
  | c :: rest, acc, cnt =>
    if c.isDigit then pDigitsGo rest (10 * acc + (c.toNat - 48)) (cnt + 1)
    else (acc, cnt, c :: rest)

/-- Parse an exponent part (after `e`/`E`). -/
def pExpPart (cs : List Char) : Option (Int × List Char) :=
  let (sgn, r1) : Int × List Char :=
    match cs with
    | '-' :: rr => (-1, rr)
    | '+' :: rr => (1, rr)
    | _ => (1, cs)
  let (ev, ec, r2) := pDigitsGo r1 0 0
  if ec = 0 then none else some (sgn * ev, r2)

/-- Parse the part of a JSON number after its integer digits. -/
def pNumberTail (ip : Nat) (cs : List Char) : Option (JsNum × List Char) :=
  let (frac, cs2) : JsNum × List Char :=
    match cs with
    | '.' :: r =>
      let (fp, fc, r2) := pDigitsGo r 0 0
      (jsNumMk fp (10 ^ fc), r2)
    | _ => (⟨0, 1⟩, cs)
  let base : JsNum := JsNum.add ⟨ip, 1⟩ frac
  match cs2 with
  | 'e' :: r => (pExpPart r).map (fun p => (base.mul (JsNum.zpow ⟨10, 1⟩ p.1), p.2))
  | 'E' :: r => (pExpPart r).map (fun p => (base.mul (JsNum.zpow ⟨10, 1⟩ p.1), p.2))
  | _ => some (base, cs2)

/-- Parse a JSON number. (Leading-zero rejection is not modelled; no claim
depends on it.) -/
def pNumber (cs : List Char) : Option (JsNum × List Char) :=
  match cs with
  | '-' :: r =>
    let (ip, ic, r2) := pDigitsGo r 0 0
    if ic = 0 then none else (pNumberTail ip r2).map (fun p => (p.1.neg, p.2))
  | _ =>
    let (ip, ic, r2) := pDigitsGo cs 0 0
    if ic = 0 then none else pNumberTail ip r2

mutual

/-- Fuel-indexed JSON value parser. The fuel only bounds recursion depth;
`jsonParse` supplies enough for any input. -/
def pValue : Nat → List Char → Option (JsValue × List Char)
  | 0, _ => none
  | fuel + 1, cs =>
    match skipJsonWs cs with
    | 'n' :: 'u' :: 'l' :: 'l' :: rest => some (.null, rest)
    | 't' :: 'r' :: 'u' :: 'e' :: rest => some (.bool true, rest)
    | 'f' :: 'a' :: 'l' :: 's' :: 'e' :: rest => some (.bool false, rest)
    | '"' :: rest => (pJString rest).map (fun p => (.str (String.mk p.1), p.2))
    | '[' :: rest =>
      match skipJsonWs rest with
      | ']' :: r2 => some (.arr [], r2)
      | cs2 => (pArrayItems fuel cs2).map (fun p => (.arr p.1, p.2))
    | '\x7b' :: rest =>
      match skipJsonWs rest with
      | '\x7d' :: r2 => some (.obj [], r2)
      | cs2 => (pObjItems fuel cs2).map (fun p => (.obj p.1, p.2))
    | cs2 => (pNumber cs2).map (fun p => (.num p.1, p.2))

/-- One or more comma-separated array elements followed by `]`. -/
def pArrayItems : Nat → List Char → Option (List JsValue × List Char)
  | 0, _ => none
  | fuel + 1, cs =>
    match pValue fuel cs with
    | some (v, r) =>
      match skipJsonWs r with
      | ',' :: r2 => (pArrayItems fuel r2).map (fun p => (v :: p.1, p.2))
      | ']' :: r2 => some ([v], r2)
      | _ => none
    | none => none

/-- One or more comma-separated `"key": value` members followed by `}`. -/
def pObjItems : Nat → List Char → Option (List (String × JsValue) × List Char)
  | 0, _ => none
  | fuel + 1, cs =>
    match skipJsonWs cs with
    | '"' :: r =>
      match pJString r with
      | some (kcs, r2) =>
        match skipJsonWs r2 with
        | ':' :: r3 =>
          match pValue fuel r3 with
          | some (v, r4) =>
            match skipJsonWs r4 with
            | ',' :: r5 => (pObjItems fuel r5).map (fun p => ((String.mk kcs, v) :: p.1, p.2))
            | '\x7d' :: r5 => some ([(String.mk kcs, v)], r5)
            | _ => none
          | none => none
        | _ => none
      | none => none
    | _ => none

end

/-- `JSON.parse`: parse the whole string as one JSON value; any failure throws
a `SyntaxError` (modelled with a fixed message — the pipeline never inspects it). -/
def jsonParse (s : String) : Except JsError JsValue :=
  match pValue (2 * s.length + 4) s.data with
  | some (v, rest) =>
    if skipJsonWs rest = [] then .ok v else .error ⟨"Unexpected token in JSON"⟩
  | none => .error ⟨"Unexpected token in JSON"⟩

/-! ## UTF-8 bytes and MD5 (crypto.createHash("md5")) -/

/-- UTF-8 encoding of one code point. -/
def utf8EncodeChar (n : Nat) : List Nat :=
  if n < 0x80 then [n]
  else if n < 0x800 then [0xC0 + n / 64, 0x80 + n % 64]
  else if n < 0x10000 then [0xE0 + n / 4096, 0x80 + n / 64 % 64, 0x80 + n % 64]
  else [0xF0 + n / 262144, 0x80 + n / 4096 % 64, 0x80 + n / 64 % 64, 0x80 + n % 64]

/-- UTF-8 byte sequence of a string (what `hash.update(string)` consumes). -/
def utf8Bytes (s : String) : List Nat :=
  (s.data.map (fun c => utf8EncodeChar c.toNat)).flatten

/-- 32-bit truncating addition. -/
def add32 (a b : Nat) : Nat := (a + b) % 4294967296

/-- 32-bit bitwise complement (arguments are kept below `2^32` throughout). -/
def not32 (x : Nat) : Nat := 4294967295 - x

/-- 32-bit left rotation. -/
def rotl32 (x s : Nat) : Nat := (x * 2 ^ s) % 4294967296 + x / 2 ^ (32 - s)

/-- MD5 sine-derived constant table `K`. -/
def md5K : List Nat :=
  [0xd76aa478, 0xe8c7b756, 0x242070db, 0xc1bdceee, 0xf57c0faf, 0x4787c62a, 0xa8304613, 0xfd469501,
   0x698098d8, 0x8b44f7af, 0xffff5bb1, 0x895cd7be, 0x6b901122, 0xfd987193, 0xa679438e, 0x49b40821,
   0xf61e2562, 0xc040b340, 0x265e5a51, 0xe9b6c7aa, 0xd62f105d, 0x02441453, 0xd8a1e681, 0xe7d3fbc8,
   0x21e1cde6, 0xc33707d6, 0xf4d50d87, 0x455a14ed, 0xa9e3e905, 0xfcefa3f8, 0x676f02d9, 0x8d2a4c8a,
   0xfffa3942, 0x8771f681, 0x6d9d6122, 0xfde5380c, 0xa4beea44, 0x4bdecfa9, 0xf6bb4b60, 0xbebfbc70,
   0x289b7ec6, 0xeaa127fa, 0xd4ef3085, 0x04881d05, 0xd9d4d039, 0xe6db99e5, 0x1fa27cf8, 0xc4ac5665,
   0xf4292244, 0x432aff97, 0xab9423a7, 0xfc93a039, 0x655b59c3, 0x8f0ccc92, 0xffeff47d, 0x85845dd1,
   0x6fa87e4f, 0xfe2ce6e0, 0xa3014314, 0x4e0811a1, 0xf7537e82, 0xbd3af235, 0x2ad7d2bb, 0xeb86d391]

/-- MD5 per-step left-rotation amounts. -/
def md5S : List Nat :=
  [7, 12, 17, 22, 7, 12, 17, 22, 7, 12, 17, 22, 7, 12, 17, 22,
   5, 9, 14, 20, 5, 9, 14, 20, 5, 9, 14, 20, 5, 9, 14, 20,
   4, 11, 16, 23, 4, 11, 16, 23, 4, 11, 16, 23, 4, 11, 16, 23,
   6, 10, 15, 21, 6, 10, 15, 21, 6, 10, 15, 21, 6, 10, 15, 21]

/-- One MD5 step `i` (0‥63) on state `(a, b, c, d)` with message words `M`. -/
def md5Step (M : List Nat) (st : Nat × Nat × Nat × Nat) (i : Nat) : Nat × Nat × Nat × Nat :=
  let (a, b, c, d) := st
  let f :=
    if i < 16 then Nat.lor (Nat.land b c) (Nat.land (not32 b) d)
    else if i < 32 then Nat.lor (Nat.land d b) (Nat.land (not32 d) c)
    else if i < 48 then Nat.xor (Nat.xor b c) d
    else Nat.xor c (Nat.lor b (not32 d))
  let g :=
    if i < 16 then i
    else if i < 32 then (5 * i + 1) % 16
    else if i < 48 then (3 * i + 5) % 16
    else (7 * i) % 16
  let tmp := add32 (add32 (add32 f a) (md5K.getD i 0)) (M.getD g 0)
  (d, add32 b (rotl32 tmp (md5S.getD i 0)), b, c)

/-- Little-endian byte rendering of `n` on `k` bytes. -/
def leBytes : Nat → Nat → List Nat
  | 0, _ => []
  | k + 1, n => n % 256 :: leBytes k (n / 256)

/-- A little-endian 32-bit word from four bytes. -/
def leWord (b0 b1 b2 b3 : Nat) : Nat := b0 + 256 * b1 + 65536 * b2 + 16777216 * b3

/-- MD5 padding: `0x80`, zeros to 56 mod 64, then the 64-bit little-endian bit length. -/
def md5Pad (msg : List Nat) : List Nat :=
  msg ++ [0x80] ++ List.replicate ((119 - msg.length % 64) % 64) 0
      ++ leBytes 8 (msg.length * 8 % 18446744073709551616)

/-- One 512-bit block: run the 64 steps and add the result into the state. -/
def md5Block (M : List Nat) (st : Nat × Nat × Nat × Nat) : Nat × Nat × Nat × Nat :=
  let (a0, b0, c0, d0) := st
  let (a, b, c, d) := (List.range 64).foldl (md5Step M) (a0, b0, c0, d0)
  (add32 a0 a, add32 b0 b, add32 c0 c, add32 d0 d)

/-- Process `n` consecutive 64-byte blocks. -/
def md5Blocks : Nat → List Nat → Nat × Nat × Nat × Nat → Nat × Nat × Nat × Nat
  | 0, _, st => st
  | n + 1, bytes, st =>
    let block := bytes.take 64
    let M := (List.range 16).map (fun j =>
      leWord (block.getD (4 * j) 0) (block.getD (4 * j + 1) 0)
             (block.getD (4 * j + 2) 0) (block.getD (4 * j + 3) 0))
    md5Blocks n (bytes.drop 64) (md5Block M st)

/-- MD5 digest (16 bytes) of a byte sequence. -/
def md5Bytes (msg : List Nat) : List Nat :=
  let padded := md5Pad msg
  let (a, b, c, d) :=
    md5Blocks (padded.length / 64) padded (0x67452301, 0xefcdab89, 0x98badcfe, 0x10325476)
  leBytes 4 a ++ leBytes 4 b ++ leBytes 4 c ++ leBytes 4 d

/-- Two lowercase hex digits of a byte. -/
def byteHex (b : Nat) : String := String.mk [Nat.digitChar (b / 16), Nat.digitChar (b % 16)]

/-- Lowercase hex MD5 digest of a byte sequence (`.digest("hex")`). -/
def md5Hex (msg : List Nat) : String := String.join ((md5Bytes msg).map byteHex)

/-! ## Cache store (`src/services/cache.service.js`, `CacheService`)

The Redis backend is modelled by `RedisState`: a connection flag (covering both
`!this.client` and `!this.isConnected`, which the service always tests together),
two failure switches standing for the backend client throwing on `GET`/`SET`, and
the key → (value, expiresAt) store. -/

/-- State of the Redis backend as seen by `CacheService`. -/
structure RedisState where
  connected : Bool
  failGet : Bool
  failSet : Bool
  entries : List (String × String × Nat)
deriving DecidableEq, Repr

/-- The backend client's `GET`: throws when failing, otherwise returns the
value stored under `key` if it has not expired. -/
def clientGet (st : RedisState) (now : Nat) (key : String) : Except JsError (Option String) :=
  if st.failGet then .error ⟨"redis get failed"⟩
  else .ok ((st.entries.find? (fun e => e.1 == key)).bind
    (fun e => if now < e.2.2 then some e.2.1 else none))

/-- The backend client's `SET key value EX ttl`: throws when failing, otherwise
stores the value with expiry `now + ttl` and replies `"OK"`. -/
def clientSet (st : RedisState) (now : Nat) (key value : String) (ttl : Nat) :
    Except JsError (String × RedisState) :=
  if st.failSet then .error ⟨"redis set failed"⟩
  else .ok ("OK", { st with
    entries := (key, value, now + ttl) :: st.entries.filter (fun e => e.1 != key) })

/-- `CacheService.get`: `null` when client missing/disconnected; backend errors
are caught, logged and swallowed to `null`; otherwise the stored value or `null`.
Total by construction — it never throws to the caller. -/
def serviceGet (st : RedisState) (now : Nat) (key : String) : Option String :=
  if !st.connected then none
  else
    match clientGet st now key with
    | .ok v => v
    | .error _ => none

/-- `CacheService.set`: `false` when client missing/disconnected or on a caught
backend error; `result === 'OK'` on success. Returns the success flag and the
(possibly updated) backend state; never throws. -/
def serviceSet (st : RedisState) (now : Nat) (key value : String) (ttl : Nat) :
    Bool × RedisState :=
  if !st.connected then (false, st)
  else
    match clientSet st now key value ttl with
    | .ok (r, st') => (r == "OK", st')
    | .error _ => (false, st)

/-! ## String scanning helpers

These re-implement the handful of string operations the sources use over
`String.data` character lists, so that every pipeline run reduces by `rfl`. -/

/-- `pat` occurs in `cs` starting at position 0. -/
def listStartsWith : List Char → List Char → Bool
  | _, [] => true
  | [], _ :: _ => false
  | c :: cs, p :: ps => c == p && listStartsWith cs ps

/-- `pat` occurs somewhere in `cs`. -/
def listContainsSub : List Char → List Char → Bool
  | [], pat => pat.isEmpty
  | c :: cs, pat => listStartsWith (c :: cs) pat || listContainsSub cs pat

/-- JS `s.includes(pat)`. -/
def strContains (s pat : String) : Bool := listContainsSub s.data pat.data

/-- JS `s.startsWith(pat)`. -/
def strStartsWith (s pat : String) : Bool := listStartsWith s.data pat.data

/-- JS `s.endsWith(pat)`. -/
def strEndsWith (s pat : String) : Bool := listStartsWith s.data.reverse pat.data.reverse

/-- JS `\s` for the ASCII range (Unicode space classes beyond ASCII are not
modelled; no claim involves them). -/
def isJsWsChar (c : Char) : Bool :=
  c == ' ' || c == '\t' || c == '\n' || c == '\r' || c == '\x0b' || c == '\x0c'

/-- JS `s.trim()` (ASCII whitespace). -/
def jsTrim (s : String) : String :=
  String.mk (((s.data.dropWhile isJsWsChar).reverse.dropWhile isJsWsChar).reverse)

/-! ## `formatResponse` (`src/utils/ai.utils.js`) -/

/-- `.replace(/^```json\n/, '')`: strip one leading ```` ```json ````-plus-newline marker. -/
def stripLeadingFence (s : String) : String :=
  if strStartsWith s "```json\n" then String.mk (s.data.drop 8) else s

/-- `.replace(/```$/, '')`: strip one trailing ```` ``` ```` marker. In
ECMAScript, `$` without the `m` flag anchors only at the very end of the input
(it does not match before a final newline), so only a string that itself ends
in ```` ``` ```` is stripped. -/
def stripTrailingFence (s : String) : String :=
  if strEndsWith s "```" then String.mk (s.data.take (s.data.length - 3)) else s

/-- The `cleaned` intermediate of `formatResponse`: fence markers stripped,
then `.trim()`. -/
def formatCleaned (s : String) : String :=
  jsTrim (stripTrailingFence (stripLeadingFence s))

/-- `formatResponse`: strip code-fence markers, trim, `JSON.parse`; on parse
failure return the structured `{error: "Invalid result format"}` payload. -/
def formatResponse (rawResult : String) : JsValue :=
  match jsonParse (formatCleaned rawResult) with
  | .ok v => v
  | .error _ => .obj [("error", .str "Invalid result format")]

/-! ## Whitespace split (`generatedContent.split(/\s+/)`) -/

mutual

/-- `split(/\s+/)` while inside a token (`tok` holds its characters reversed). -/
def splitWsGo : List Char → List Char → List String
  | [], tok => [String.mk tok.reverse]
  | c :: cs, tok =>
    if isJsWsChar c then String.mk tok.reverse :: splitWsSkip cs
    else splitWsGo cs (c :: tok)

/-- `split(/\s+/)` while inside a whitespace run (a trailing run yields a final
empty token, as in JS). -/
def splitWsSkip : List Char → List String
  | [] => [""]
  | c :: cs => if isJsWsChar c then splitWsSkip cs else splitWsGo cs [c]

end

/-- `s.split(/\s+/)`: tokens between whitespace runs, with boundary empties
(`"" → [""]`, `" a" → ["", "a"]`, `"a " → ["a", ""]`). -/
def jsSplitWs (s : String) : List String := splitWsGo s.data []

/-! ## AI service (`src/services/ai.service.js`, `AIService`) -/

/-- One invocation of the opaque model capability
`this.model.generateContent({model, contents, generationConfig?})`. -/
structure GenCall where
  model : String
  contents : JsValue
  generationConfig : JsValue

/-- Observable effects of a pipeline run, in order of occurrence. -/
inductive Event where
  | cacheGet (key : String) (result : Option String)
  | cacheSet (key : String) (value : String) (ok : Bool)
  | modelCall (call : GenCall)
  | batchErrorLog (batchIndex : Nat) (message : String)
  | delayMs (ms : Nat)

/-- `AIService.generateCacheKey`:
`` `ai:${request.type}:${md5hex(JSON.stringify(request))}` ``. A request is the
raw JS object the caller passed; `JSON.stringify` serializes its fields in
insertion order (no canonicalization, no key sorting). -/
def generateCacheKey (request : JsValue) : String :=
  "ai:" ++ jsToStringCoerce (request.getProp "type") ++ ":"
    ++ md5Hex (utf8Bytes ((jsonStringify request).getD "undefined"))

/-- `AIService.summarizeText`: build the summarization prompt, call the model,
shape the result envelope. `compressionRatio` is JS float division, idealized as
exact rational division (0 when the summary is empty, where JS gives Infinity). -/
def summarizeText (gen : GenCall → Except JsError String) (now : Nat)
    (content options : JsValue) : Except JsError JsValue × List Event :=
  let maxLength := jsOr (options.getProp "maxLength") (.num 150)
  let style := jsOr (options.getProp "style") (.str "concise")
  let prompt := "You are an expert content summarizer. Create " ++ jsToStringCoerce style
    ++ " summaries that capture the key points and main ideas. Keep summaries under "
    ++ jsToStringCoerce maxLength ++ " words.\n\n     Content to summarize:\n     "
    ++ jsToStringCoerce content
  let call : GenCall := ⟨"gemini-2.0-flash", .str prompt, .undefined⟩
  match gen call with
  | .error e => (.error e, [.modelCall call])
  | .ok summary =>
    let contentLen : JsNum := ⟨(jsToStringCoerce content).length, 1⟩
    let summaryLen : JsNum := ⟨summary.length, 1⟩
    (.ok (.obj [("type", .str "summarize"),
      ("result", .obj [("summary", .str summary),
        ("originalLength", .num contentLen),
        ("summaryLength", .num summaryLen),
        ("compressionRatio", .num (contentLen.div summaryLen))]),
      ("processingTime", .num now)]), [.modelCall call])

/-- `AIService.analyzeSentiment`: prompt for strict JSON, call the model, parse
through `formatResponse`. (`ensureInitialized` is modelled as succeeding.) -/
def analyzeSentiment (gen : GenCall → Except JsError String) (now : Nat)
    (content : JsValue) : Except JsError JsValue × List Event :=
  let prompt := "You are a sentiment analysis expert. Analyze the sentiment of the given text and provide:\n  1. Overall sentiment (positive, negative, neutral)\n  2. Confidence score (0-10)\n  3. Key emotional indicators\n  4. Brief explanation\n\n  Respond in JSON format only\n\n  Text to analyze:\n  "
    ++ jsToStringCoerce content ++ "."
  let call : GenCall := ⟨"gemini-2.0-flash", .str prompt, .undefined⟩
  match gen call with
  | .error e => (.error e, [.modelCall call])
  | .ok text =>
    (.ok (.obj [("type", .str "analyze-sentiment"),
      ("result", formatResponse text),
      ("processingTime", .num now)]), [.modelCall call])

/-- `AIService.extractKeywords`. The source computes
`keywords = JSON.parse(response)` — where `response` is already the *parsed*
`formatResponse` value, so `JSON.parse` string-coerces it first — catches any
parse failure into `keywords = []`, and then returns an envelope that carries
only `{response}` and **discards `keywords`**. The third component returns that
dead value so theorems can exhibit the discard (`none` when the model call threw
before it was computed). -/
def extractKeywords (gen : GenCall → Except JsError String) (now : Nat)
    (content : JsValue) : Except JsError JsValue × List Event × Option JsValue :=
  let prompt := "Extract the most important keywords and key phrases from the given text. Return a JSON array of keywords with their relevance scores (0-10). Focus on nouns, important adjectives, and key concepts.\n    Text to analyze:\n    "
    ++ jsToStringCoerce content
  let call : GenCall := ⟨"gemini-2.0-flash", .str prompt, .undefined⟩
  match gen call with
  | .error e => (.error e, [.modelCall call], none)
  | .ok text =>
    let response := formatResponse text
    let keywords :=
      match jsonParse (jsToStringCoerce response) with
      | .ok v => v
      | .error _ => .arr []
    (.ok (.obj [("type", .str "extract-keywords"),
      ("result", .obj [("response", response)]),
      ("processingTime", .num now)]), [.modelCall call], some keywords)

/-- `AIService.generateContent`: style/temperature/maxTokens defaults, structured
`contents`, word count by whitespace split. -/
def generateContentOp (gen : GenCall → Except JsError String) (now : Nat)
    (content options : JsValue) : Except JsError JsValue × List Event :=
  let style := jsOr (options.getProp "style") (.str "professional")
  let systemPrompt := "You are a professional content creator. Generate high-quality, "
    ++ jsToStringCoerce style
    ++ " content based on the user's request. Ensure the content is engaging, well-structured, and appropriate for the intended audience.\n\n     User request:\n     "
    ++ jsToStringCoerce content
  let generationConfig : JsValue := .obj [
    ("temperature", jsOr (options.getProp "temperature") (.num ⟨7, 10⟩)),
    ("maxOutputTokens", jsOr (options.getProp "maxTokens") (.num 1024))]
  let call : GenCall := ⟨"gemini-2.0-flash",
    .arr [.obj [("role", .str "user"), ("parts", .arr [.obj [("text", .str systemPrompt)]])]],
    generationConfig⟩
  match gen call with
  | .error e => (.error e, [.modelCall call])
  | .ok generated =>
    (.ok (.obj [("type", .str "generate-content"),
      ("result", .obj [("content", .str generated),
        ("wordCount", .num ⟨(jsSplitWs generated).length, 1⟩)]),
      ("processingTime", .num now)]), [.modelCall call])

/-- The translate prompt, exposed so theorems can speak about it.
`preserveFormatting` is `options?.preserveFormatting || true`. -/
def translatePrompt (content options : JsValue) : String :=
  let targetLanguage := jsOr (options.getProp "targetLanguage") (.str "Spanish")
  let preserveFormatting := jsOr (options.getProp "preserveFormatting") (.bool true)
  "You are a professional translator. Translate the given text to "
    ++ jsToStringCoerce targetLanguage ++ ". "
    ++ (if preserveFormatting.truthy then "Preserve the original formatting and structure." else "")
    ++ " Ensure accuracy and natural flow in the target language.\n\n    Text to translate:\n    "
    ++ jsToStringCoerce content

/-- `AIService.translateText`: translation envelope with fixed
`sourceLanguage: "auto-detected"`. -/
def translateText (gen : GenCall → Except JsError String) (now : Nat)
    (content options : JsValue) : Except JsError JsValue × List Event :=
  let targetLanguage := jsOr (options.getProp "targetLanguage") (.str "Spanish")
  let call : GenCall := ⟨"gemini-2.0-flash", .str (translatePrompt content options), .undefined⟩
  match gen call with
  | .error e => (.error e, [.modelCall call])
  | .ok translated =>
    (.ok (.obj [("type", .str "translate"),
      ("result", .obj [("originalText", content),
        ("translatedText", .str translated),
        ("sourceLanguage", .str "auto-detected"),
        ("targetLanguage", targetLanguage)]),
      ("processingTime", .num now)]), [.modelCall call])


/-- The `switch (request.type)` of `AIService.processContent`: route to the
operation-specific transform; any other `type` value throws
`Unsupported AI processing type: ${request.type}`. -/
def dispatch (gen : GenCall → Except JsError String) (now : Nat) (request : JsValue) :
    Except JsError JsValue × List Event :=
  match request.getProp "type" with
  | .str "summarize" =>
    summarizeText gen now (request.getProp "content") (request.getProp "options")
  | .str "analyze-sentiment" =>
    analyzeSentiment gen now (request.getProp "content")
  | .str "extract-keywords" =>
    let r := extractKeywords gen now (request.getProp "content")
    (r.1, r.2.1)
  | .str "generate-content" =>
    generateContentOp gen now (request.getProp "content") (request.getProp "options")
  | .str "translate" =>
    translateText gen now (request.getProp "content") (request.getProp "options")
  | t => (.error ⟨"Unsupported AI processing type: " ++ jsToStringCoerce t⟩, [])

/-- Whether `type` is one of the five supported operations. -/
def isSupportedType : JsValue → Bool
  | .str "summarize" => true
  | .str "analyze-sentiment" => true
  | .str "extract-keywords" => true
  | .str "generate-content" => true
  | .str "translate" => true
  | _ => false

/-- The cache-miss continuation of `AIService.processContent`: dispatch, then
`cacheService.set(key, JSON.stringify(result), 3600)` (a failed write is
recorded but the result is still returned); a transform error propagates and is
not cached. -/
def processMiss (gen : GenCall → Except JsError String) (st : RedisState) (now : Nat)
    (request : JsValue) (key : String) (getEv : Event) :
    Except JsError JsValue × RedisState × List Event :=
  match dispatch gen now request with
  | (.error e, evs) => (.error e, st, getEv :: evs)
  | (.ok v, evs) =>
    let serialized := (jsonStringify v).getD "undefined"
    let (ok, st') := serviceSet st now key serialized 3600
    (.ok v, st', getEv :: evs ++ [.cacheSet key serialized ok])

/-- `AIService.processContent`: compute the cache key, `cacheService.get` it;
on a (truthy) hit, `JSON.parse` the cached text and return without touching the
model; otherwise dispatch and cache the result. An empty cached string is falsy
in JS and takes the miss path. -/
def processContent (gen : GenCall → Except JsError String) (st : RedisState) (now : Nat)
    (request : JsValue) : Except JsError JsValue × RedisState × List Event :=
  let key := generateCacheKey request
  match serviceGet st now key with
  | some s =>
    if s = "" then processMiss gen st now request key (.cacheGet key (some s))
    else (jsonParse s, st, [.cacheGet key (some s)])
  | none => processMiss gen st now request key (.cacheGet key none)

/-! ## Batch executor (`AIService.batchProcess`)

`Promise.all` over a window is determinized to in-order execution: every request
of the window runs (with its cache side effects), and the window's outcome is
the first (lowest-index) rejection if any, else the in-order result list. -/

/-- One window of up to `batchSize` requests (`batch.map(processContent)` +
`Promise.all`), state threaded left to right. -/
def windowRun (gen : GenCall → Except JsError String) (now : Nat) :
    RedisState → List JsValue → Except JsError (List JsValue) × RedisState × List Event
  | st, [] => (.ok [], st, [])
  | st, r :: rs =>
    let (res, st1, tr1) := processContent gen st now r
    let (resRest, st2, tr2) := windowRun gen now st1 rs
    match res with
    | .error e => (.error e, st2, tr1 ++ tr2)
    | .ok v =>
      match resRest with
      | .ok vs => (.ok (v :: vs), st2, tr1 ++ tr2)
      | .error e => (.error e, st2, tr1 ++ tr2)

/-- The `for (let i = 0; i < requests.length; i += batchSize)` loop of
`batchProcess`, with `batchSize = 5`: slice a window, run it; on failure log
`batchIndex = Math.floor(i / batchSize)` and rethrow the error; on success
append the results and, if more requests remain, `delay(1000)` before the next
window. `i` is the absolute offset of the window. -/
def batchGo (gen : GenCall → Except JsError String) (now : Nat) :
    RedisState → List JsValue → Nat → Except JsError (List JsValue) × RedisState × List Event
  | st, [], _ => (.ok [], st, [])
  | st, r1 :: r2 :: r3 :: r4 :: r5 :: rest, i =>
    let (res, st1, tr1) := windowRun gen now st [r1, r2, r3, r4, r5]
    match res with
    | .error e => (.error e, st1, tr1 ++ [.batchErrorLog (i / 5) e.message])
    | .ok vs =>
      let delayTr : List Event := if rest.isEmpty then [] else [.delayMs 1000]
      let (resRest, st2, tr2) := batchGo gen now st1 rest (i + 5)
      match resRest with
      | .ok vs2 => (.ok (vs ++ vs2), st2, tr1 ++ delayTr ++ tr2)
      | .error e => (.error e, st2, tr1 ++ delayTr ++ tr2)
  | st, pending, i =>
    let (res, st1, tr1) := windowRun gen now st pending
    match res with
    | .error e => (.error e, st1, tr1 ++ [.batchErrorLog (i / 5) e.message])
    | .ok vs => (.ok vs, st1, tr1)

/-- `AIService.batchProcess(requests)`. -/
def batchProcess (gen : GenCall → Except JsError String) (st : RedisState) (now : Nat)
    (requests : List JsValue) : Except JsError (List JsValue) × RedisState × List Event :=
  batchGo gen now st requests 0

/-! ## HTTP controller (`AIController` in `src/controllers/ai.controller.js`) -/

/-- `AIController.processContent`: reject missing/falsy `type` or `content` with
400 before calling the service; 200 on success; 400 for unsupported-type errors;
500 otherwise. Returns `(statusCode, response body)` plus the service's state
and trace (empty when the service was never invoked). -/
def controllerProcessContent (gen : GenCall → Except JsError String) (st : RedisState)
    (now : Nat) (body : JsValue) : (Nat × JsValue) × RedisState × List Event :=
  let type := body.getProp "type"
  let content := body.getProp "content"
  let options := body.getProp "options"
  if !(type.truthy && content.truthy) then
    ((400, .obj [("message", .str "Type and content are required fields")]), st, [])
  else
    match processContent gen st now (.obj [("type", type), ("content", content),
        ("options", jsOr options (.obj []))]) with
    | (.ok v, st', tr) => ((200, v), st', tr)
    | (.error e, st', tr) =>
      if strContains e.message "Unsupported AI processing type" then
        ((400, .obj [("message", .str e.message)]), st', tr)
      else
        ((500, .obj [("message", .str "AI processing failed"), ("error", .str e.message)]), st', tr)

/-- `AIController.batchProcess`: 400 unless `requests` is a non-empty array; 400
if any element lacks a truthy `type` or `content` (checked up front, before the
service runs); then delegate to `AIService.batchProcess`. -/
def controllerBatchProcess (gen : GenCall → Except JsError String) (st : RedisState)
    (now : Nat) (body : JsValue) : (Nat × JsValue) × RedisState × List Event :=
  match body.getProp "requests" with
  | .arr elems =>
    if elems.isEmpty then
      ((400, .obj [("message", .str "Valid requests array is required")]), st, [])
    else if elems.any (fun el =>
        !((el.getProp "type").truthy && (el.getProp "content").truthy)) then
      ((400, .obj [("message", .str "Each request must include type and content")]), st, [])
    else
      match batchProcess gen st now elems with
      | (.ok vs, st', tr) =>
        ((200, .obj [("results", .arr vs), ("count", .num ⟨vs.length, 1⟩)]), st', tr)
      | (.error e, st', tr) =>
        ((500, .obj [("message", .str "AI batch processing failed"),
          ("error", .str e.message)]), st', tr)
  | _ => ((400, .obj [("message", .str "Valid requests array is required")]), st, [])

/-! ## Trace observables -/

/-- Number of model-capability invocations in a trace. -/
def countModelCalls (tr : List Event) : Nat :=
  tr.countP (fun e => match e with | .modelCall _ => true | _ => false)

/-- Number of cache reads in a trace. -/
def countCacheGets (tr : List Event) : Nat :=
  tr.countP (fun e => match e with | .cacheGet _ _ => true | _ => false)

/-- Number of cache writes in a trace. -/
def countCacheSets (tr : List Event) : Nat :=
  tr.countP (fun e => match e with | .cacheSet _ _ _ => true | _ => false)

/-- Extract a success value (used by closed witnesses to avoid restating large
result terms). -/
def okValue : Except JsError JsValue → JsValue
  | .ok v => v
  | .error _ => .undefined

/-- Extract a success list (see `okValue`). -/
def okList : Except JsError (List JsValue) → List JsValue
  | .ok vs => vs
  | .error _ => []

/-- Sequential one-by-one processing in input order — the reference behavior the
batch executor is compared against (stops at the first error; agrees with the
executor on every all-success run). -/
def processAllSeq (gen : GenCall → Except JsError String) (now : Nat) :
    RedisState → List JsValue → Except JsError (List JsValue) × RedisState
  | st, [] => (.ok [], st)
  | st, r :: rs =>
    match processContent gen st now r with
    | (.ok v, st1, _) =>
      match processAllSeq gen now st1 rs with
      | (.ok vs, st2) => (.ok (v :: vs), st2)
      | (.error e, st2) => (.error e, st2)
    | (.error e, st1, _) => (.error e, st1)

/-! ## Helper lemmas -/

/-- `x || true`-style defaulting is truthy for every JS value. -/
theorem jsOr_bool_true_truthy (v : JsValue) : (jsOr v (.bool true)).truthy = true := by
  unfold jsOr
  split
  · next h => exact h
  · rfl

/-! ## C10 — translate prompt always contains the preservation instruction -/

/-- **C10.** For every content and every options value — including
`preserveFormatting: false` — the translate prompt is exactly the instruction
text with the formatting-preservation sentence present, because the effective
flag `options?.preserveFormatting || true` is truthy for all inputs; the
`preserveFormatting` option has no observable effect on the built prompt
(which depends only on `targetLanguage` and the content). -/
theorem c10_translatePrompt_always_preserves (content options : JsValue) :
    translatePrompt content options =
      "You are a professional translator. Translate the given text to "
        ++ jsToStringCoerce (jsOr (options.getProp "targetLanguage") (.str "Spanish"))
        ++ ". "
        ++ "Preserve the original formatting and structure."
        ++ " Ensure accuracy and natural flow in the target language.\n\n    Text to translate:\n    "
        ++ jsToStringCoerce content := by
  simp [translatePrompt, jsOr_bool_true_truthy]

/-! ## C7 — cache store degrades to absent/false, never throws -/

/-- The entry the backend currently holds under `key`, with its expiry. -/
def lookupEntry (st : RedisState) (key : String) : Option (String × Nat) :=
  (st.entries.find? (fun e => e.1 == key)).map (fun e => e.2)

/-- **C7.** `CacheService.get` returns the stored text or `null` — `null` on
miss, on backend unavailability (disconnected), on expiry, and on any backend
error — and `CacheService.set` returns a boolean success flag, `false` (state
untouched) when the backend is unavailable or errors. Both are total functions
in this embedding: exceptions from the backend are caught inside the service,
so nothing ever propagates to the caller. -/
theorem c7_cache_store_contract :
    (∀ st now key, st.connected = false → serviceGet st now key = none) ∧
    (∀ st now key, st.failGet = true → serviceGet st now key = none) ∧
    (∀ st now key v exp, st.connected = true → st.failGet = false →
      lookupEntry st key = some (v, exp) →
      serviceGet st now key = if now < exp then some v else none) ∧
    (∀ st now key, st.connected = true → st.failGet = false →
      lookupEntry st key = none → serviceGet st now key = none) ∧
    (∀ st now key value ttl, st.connected = false →
      serviceSet st now key value ttl = (false, st)) ∧
    (∀ st now key value ttl, st.connected = true → st.failSet = true →
      serviceSet st now key value ttl = (false, st)) ∧
    (∀ st now key value ttl, st.connected = true → st.failSet = false →
      serviceSet st now key value ttl = (true, { st with
        entries := (key, value, now + ttl) :: st.entries.filter (fun e => e.1 != key) })) := by
  refine ⟨?_, ?_, ?_, ?_, ?_, ?_, ?_⟩
  · intro st now key h
    simp [serviceGet, h]
  · intro st now key h
    by_cases hc : st.connected = true
    · simp [serviceGet, clientGet, h, hc]
    · simp [Bool.not_eq_true] at hc
      simp [serviceGet, hc]
  · intro st now key v exp hc hg hl
    unfold lookupEntry at hl
    unfold serviceGet clientGet
    simp [hc, hg]
    match hf : st.entries.find? (fun e => e.1 == key) with
    | none => rw [hf] at hl; simp at hl
    | some entry =>
      rw [hf] at hl
      simp at hl
      simp [hf, hl]
  · intro st now key hc hg hl
    unfold lookupEntry at hl
    unfold serviceGet clientGet
    simp [hc, hg]
    match hf : st.entries.find? (fun e => e.1 == key) with
    | none => simp [hf]
    | some entry => rw [hf] at hl; simp at hl
  · intro st now key value ttl h
    simp [serviceSet, h]
  · intro st now key value ttl hc hs
    simp [serviceSet, clientSet, hc, hs]
  · intro st now key value ttl hc hs
    simp [serviceSet, clientSet, hc, hs]

/-- Witness for C7 at concrete inputs: a disconnected store reads `none` and
writes `false`; a connected store with a live entry reads it back. -/
theorem c7_cache_store_contract_witness :
    ((⟨false, false, false, []⟩ : RedisState).connected = false ∧
      serviceGet ⟨false, false, false, []⟩ 0 "k" = none) ∧
    (serviceSet ⟨false, false, false, []⟩ 0 "k" "v" 60 = (false, ⟨false, false, false, []⟩)) ∧
    ((⟨true, false, false, [("k", "v", 7)]⟩ : RedisState).connected = true ∧
      lookupEntry ⟨true, false, false, [("k", "v", 7)]⟩ "k" = some ("v", 7) ∧
      serviceGet ⟨true, false, false, [("k", "v", 7)]⟩ 3 "k" = some "v") :=
  ⟨⟨rfl, c7_cache_store_contract.1 ⟨false, false, false, []⟩ 0 "k" rfl⟩,
   c7_cache_store_contract.2.2.2.2.1 ⟨false, false, false, []⟩ 0 "k" "v" 60 rfl,
   ⟨rfl, rfl, by
     have := c7_cache_store_contract.2.2.1 ⟨true, false, false, [("k", "v", 7)]⟩ 3 "k" "v" 7
       rfl rfl rfl
     simpa using this⟩⟩

/-! ## C8 — fence stripping before JSON parsing -/

/-- **C8.** `formatResponse` strips exactly the leading ```` ```json ````+newline
marker and the trailing ```` ``` ```` marker before parsing: the raw model output
`"```json\n{\"a\":1}\n```"` parses to `{"a": 1}`; whenever the stripped text
fails to parse as JSON, the structured `{error: "Invalid result format"}`
payload is returned instead of failing the request. -/
theorem c8_formatResponse_fence_stripping :
    formatResponse "```json\n\x7b\"a\":1\x7d\n```" = .obj [("a", .num 1)] ∧
    (∀ s e, jsonParse (formatCleaned s) = .error e →
      formatResponse s = .obj [("error", .str "Invalid result format")]) ∧
    formatResponse "this is not json" = .obj [("error", .str "Invalid result format")] := by
  refine ⟨rfl, ?_, rfl⟩
  intro s e h
  unfold formatResponse
  rw [h]

/-- Witness for C8's parse-failure clause at a concrete raw output. -/
theorem c8_formatResponse_fence_stripping_witness :
    jsonParse (formatCleaned "oops") = .error ⟨"Unexpected token in JSON"⟩ ∧
    formatResponse "oops" = .obj [("error", .str "Invalid result format")] :=
  ⟨rfl, c8_formatResponse_fence_stripping.2.1 "oops" ⟨"Unexpected token in JSON"⟩ rfl⟩

/-! ## Shared concrete test doubles -/

/-- A model capability that always replies with `reply`. -/
def genOk (reply : String) : GenCall → Except JsError String := fun _ => .ok reply

/-- A connected, healthy, empty cache backend. -/
def st0 : RedisState := ⟨true, false, false, []⟩

/-! ## C6 — validation before any cache or model I/O -/

/-- **C6.** A single request with missing (or otherwise falsy) `type` or
`content` is rejected by the controller with the `InvalidRequest` response
(400, "Type and content are required fields") before the service runs: the
backend state is unchanged and the trace is empty — no cache and no model I/O.
A batch body containing such a request is likewise rejected up front (400,
"Each request must include type and content") with no I/O for any request of
the batch. -/
theorem c6_validation_before_execution :
    (∀ gen st now body,
      ((body.getProp "type").truthy = false ∨ (body.getProp "content").truthy = false) →
      controllerProcessContent gen st now body =
        ((400, .obj [("message", .str "Type and content are required fields")]), st, [])) ∧
    (∀ gen st now body elems, body.getProp "requests" = .arr elems →
      (∃ el ∈ elems,
        (el.getProp "type").truthy = false ∨ (el.getProp "content").truthy = false) →
      controllerBatchProcess gen st now body =
        ((400, .obj [("message", .str "Each request must include type and content")]), st, [])) := by
  constructor
  · intro gen st now body h
    have hcond : ((body.getProp "type").truthy && (body.getProp "content").truthy) = false := by
      rcases h with h | h <;> simp [h]
    simp [controllerProcessContent, hcond]
  · intro gen st now body elems hreq hbad
    have hne : elems.isEmpty = false := by
      obtain ⟨el, hmem, _⟩ := hbad
      cases elems with
      | nil => simp at hmem
      | cons a as => simp [List.isEmpty]
    simp [controllerBatchProcess, hreq, hne]
    intro hall
    obtain ⟨el, hmem, hb⟩ := hbad
    have h2 := hall el hmem
    rcases hb with h | h <;> simp [h] at h2

/-- Witness for C6: a body lacking `type`, and a batch with one such request. -/
theorem c6_validation_before_execution_witness :
    (((JsValue.obj [("content", .str "x")]).getProp "type").truthy = false ∧
      controllerProcessContent (genOk "ok") st0 0 (.obj [("content", .str "x")]) =
        ((400, .obj [("message", .str "Type and content are required fields")]), st0, [])) ∧
    ((JsValue.obj [("requests", .arr [.obj [("content", .str "x")]])]).getProp "requests" =
        .arr [.obj [("content", .str "x")]] ∧
      controllerBatchProcess (genOk "ok") st0 0
          (.obj [("requests", .arr [.obj [("content", .str "x")]])]) =
        ((400, .obj [("message", .str "Each request must include type and content")]), st0, [])) :=
  ⟨⟨rfl, c6_validation_before_execution.1 (genOk "ok") st0 0 (.obj [("content", .str "x")])
      (Or.inl rfl)⟩,
   ⟨rfl, c6_validation_before_execution.2 (genOk "ok") st0 0
      (.obj [("requests", .arr [.obj [("content", .str "x")]])]) [.obj [("content", .str "x")]]
      rfl ⟨.obj [("content", .str "x")], by simp, Or.inl rfl⟩⟩⟩

/-! ## C9 — extract-keywords discards the parsed keywords (code bug) -/

/-- A model whose text output is not JSON. -/
def genBadJson : GenCall → Except JsError String := fun _ => .ok "not valid json at all"

/-- **C9 (code bug).** On an extract-keywords run whose model output fails to
parse, the source computes `keywords` (which the catch collapses to `[]`) and
then throws the value away: the returned envelope's payload is
`{response: {error: "Invalid result format"}}` — not the empty keyword list the
spec's contract promises — and the computed `keywords = []` (third component)
is carried by no envelope field. -/
theorem c9_extractKeywords_discards_keywords :
    (extractKeywords genBadJson 5 (.str "k")).1 =
      .ok (.obj [("type", .str "extract-keywords"),
        ("result", .obj [("response", .obj [("error", .str "Invalid result format")])]),
        ("processingTime", .num 5)]) ∧
    (extractKeywords genBadJson 5 (.str "k")).2.2 = some (.arr []) :=
  ⟨rfl, rfl⟩

/-! ## C3 — unsupported type: fails, but only after a cache read -/

/-- **C3 (counterexample).** `process({type: "unknown", content: "x"})` against
a reachable empty cache fails with the unsupported-type error, but its trace
contains one cache `get` — the source looks the key up *before* the type
switch, so "performs no cache I/O (neither get nor set)" is false. -/
theorem c3_counterexample :
    (processContent (genOk "ok") st0 0
        (.obj [("type", .str "unknown"), ("content", .str "x")])).1 =
      .error ⟨"Unsupported AI processing type: unknown"⟩ ∧
    countCacheGets (processContent (genOk "ok") st0 0
        (.obj [("type", .str "unknown"), ("content", .str "x")])).2.2 = 1 :=
  ⟨rfl, rfl⟩

/-- The dispatcher's default branch: any non-supported `type` throws. -/
theorem dispatch_unsupported (gen : GenCall → Except JsError String) (now : Nat)
    (request : JsValue) (hunsup : isSupportedType (request.getProp "type") = false) :
    dispatch gen now request =
      (.error ⟨"Unsupported AI processing type: " ++ jsToStringCoerce (request.getProp "type")⟩,
        []) := by
  unfold dispatch
  split
  all_goals try (rename_i heq; rw [heq] at hunsup; simp [isSupportedType] at hunsup)
  all_goals rfl

/-- **C3 (amended).** For a request of unsupported type whose key misses the
cache, `processContent` fails with `Unsupported AI processing type: <type>`,
leaves the backend state unchanged, performs no model invocation and no cache
write — but does perform exactly one cache read, emitted before the dispatch. -/
theorem c3_amended (gen : GenCall → Except JsError String) (st : RedisState) (now : Nat)
    (request : JsValue)
    (hunsup : isSupportedType (request.getProp "type") = false)
    (hmiss : serviceGet st now (generateCacheKey request) = none) :
    processContent gen st now request =
      (.error ⟨"Unsupported AI processing type: " ++ jsToStringCoerce (request.getProp "type")⟩,
        st, [.cacheGet (generateCacheKey request) none]) := by
  simp only [processContent, hmiss]
  simp only [processMiss, dispatch_unsupported gen now request hunsup]

/-- Witness for C3's amended theorem at the concrete unsupported request. -/
theorem c3_amended_witness :
    isSupportedType ((JsValue.obj [("type", .str "unknown"), ("content", .str "x")]).getProp
      "type") = false ∧
    serviceGet st0 0 (generateCacheKey
      (.obj [("type", .str "unknown"), ("content", .str "x")])) = none ∧
    processContent (genOk "ok") st0 0 (.obj [("type", .str "unknown"), ("content", .str "x")]) =
      (.error ⟨"Unsupported AI processing type: unknown"⟩, st0,
        [.cacheGet (generateCacheKey (.obj [("type", .str "unknown"), ("content", .str "x")]))
          none]) :=
  ⟨rfl, rfl,
    c3_amended (genOk "ok") st0 0 (.obj [("type", .str "unknown"), ("content", .str "x")])
      rfl rfl⟩

/-! ## C2 — fingerprint: deterministic, but no canonicalization -/

/-- **C2 (counterexample).** Two requests identical up to the insertion order of
their `options` keys receive *different* cache keys: `JSON.stringify` serializes
object fields in insertion order and `generateCacheKey` performs no sorting, so
the serializations — and hence the MD5 digests — differ. -/
theorem c2_counterexample :
    generateCacheKey (.obj [("type", .str "summarize"), ("content", .str "x"),
        ("options", .obj [("a", .num 1), ("b", .num 2)])]) ≠
    generateCacheKey (.obj [("type", .str "summarize"), ("content", .str "x"),
        ("options", .obj [("b", .num 2), ("a", .num 1)])]) := by
  decide

/-- Hex digits decode their own encoding. -/
theorem hexDigitVal_digitChar (k : Nat) (hk : k < 16) :
    hexDigitVal (Nat.digitChar k) = some k := by
  interval_cases k <;> rfl

theorem strJoin_data (l : List String) :
    (String.join l).data = (l.map String.data).flatten := by
  suffices h : ∀ (l : List String) (acc : String),
      (List.foldl (fun r s => r ++ s) acc l).data = acc.data ++ (l.map String.data).flatten by
    simpa using h l ""
  intro l
  induction l with
  | nil => intro acc; simp
  | cons x xs ih =>
    intro acc
    simp [ih, String.data_append]

theorem jsonEscape_data (s : String) :
    (jsonEscape s).data =
      '"' :: ((s.data.map (fun c => (jsonEscapeChar c).data)).flatten ++ ['"']) := by
  simp [jsonEscape, String.data_append, strJoin_data, List.map_map]
  rfl

theorem pJString_cons_plain (c : Char) (cs : List Char) (h1 : c ≠ '"') (h2 : c ≠ '\\')
    (h3 : ¬ c.toNat < 0x20) :
    pJString (c :: cs) = (pJString cs).map (fun p => (c :: p.1, p.2)) := by
  rw [pJString.eq_def]
  split <;> simp_all

theorem pJString_cons_esc (e c : Char) (cs : List Char) (he : jsonEscCode e = some c)
    (hu : e ≠ 'u') :
    pJString ('\\' :: e :: cs) = (pJString cs).map (fun p => (c :: p.1, p.2)) := by
  rw [pJString.eq_def]
  split <;> first
    | (simp_all; done)
    | (rename_i hno heq
       injection heq with hh ht
       exact absurd ht.symm (hno _ _ hh.symm))

theorem pJString_cons_u (d1 d2 d3 d4 : Char) (a b k l : Nat) (cs : List Char)
    (h1 : hexDigitVal d1 = some a) (h2 : hexDigitVal d2 = some b)
    (h3 : hexDigitVal d3 = some k) (h4 : hexDigitVal d4 = some l) :
    pJString ('\\' :: 'u' :: d1 :: d2 :: d3 :: d4 :: cs) =
      (pJString cs).map (fun p =>
        (Char.ofNat (4096 * a + 256 * b + 16 * k + l) :: p.1, p.2)) := by
  rw [pJString.eq_def]
  split <;> first
    | (simp_all; done)
    | (rename_i hno heq
       injection heq with hh ht
       exact absurd ht.symm (hno _ _ hh.symm))
    | (rename_i hno heq
       injection heq with hh htl
       injection htl with hh2 ht
       exact absurd ht.symm (hno _ _ _ _ _ hh2.symm))


/-- Round trip: the JSON string-literal parser recovers exactly the characters
that `jsonEscapeChar` escaped, leaving the input after the closing quote. -/
theorem pJString_encode : ∀ (cs rest : List Char),
    pJString ((cs.map (fun c => (jsonEscapeChar c).data)).flatten ++ '"' :: rest) =
      some (cs, rest) := by
  intro cs
  induction cs with
  | nil => intro rest; simp [pJString]
  | cons c cs ih =>
    intro rest
    simp only [List.map_cons, List.flatten_cons, List.append_assoc]
    by_cases h1 : c = '"'
    · subst h1
      simp only [show (jsonEscapeChar '"').data = ['\\', '"'] from rfl, List.cons_append,
        List.nil_append]
      rw [pJString_cons_esc '"' '"' _ rfl (by decide), ih rest]
      rfl
    · by_cases h2 : c = '\\'
      · subst h2
        simp only [show (jsonEscapeChar '\\').data = ['\\', '\\'] from rfl, List.cons_append,
          List.nil_append]
        rw [pJString_cons_esc '\\' '\\' _ rfl (by decide), ih rest]
        rfl
      · by_cases h3 : c = '\n'
        · subst h3
          simp only [show (jsonEscapeChar '\n').data = ['\\', 'n'] from rfl, List.cons_append,
            List.nil_append]
          rw [pJString_cons_esc 'n' '\n' _ rfl (by decide), ih rest]
          rfl
        · by_cases h4 : c = '\r'
          · subst h4
            simp only [show (jsonEscapeChar '\r').data = ['\\', 'r'] from rfl, List.cons_append,
              List.nil_append]
            rw [pJString_cons_esc 'r' '\r' _ rfl (by decide), ih rest]
            rfl
          · by_cases h5 : c = '\t'
            · subst h5
              simp only [show (jsonEscapeChar '\t').data = ['\\', 't'] from rfl,
                List.cons_append, List.nil_append]
              rw [pJString_cons_esc 't' '\t' _ rfl (by decide), ih rest]
              rfl
            · by_cases h6 : c = '\x08'
              · subst h6
                simp only [show (jsonEscapeChar '\x08').data = ['\\', 'b'] from rfl,
                  List.cons_append, List.nil_append]
                rw [pJString_cons_esc 'b' '\x08' _ rfl (by decide), ih rest]
                rfl
              · by_cases h7 : c = '\x0c'
                · subst h7
                  simp only [show (jsonEscapeChar '\x0c').data = ['\\', 'f'] from rfl,
                    List.cons_append, List.nil_append]
                  rw [pJString_cons_esc 'f' '\x0c' _ rfl (by decide), ih rest]
                  rfl
                · by_cases h8 : c.toNat < 0x20
                  · have hdata : (jsonEscapeChar c).data =
                        ['\\', 'u', '0', '0', Nat.digitChar (c.toNat / 16),
                          Nat.digitChar (c.toNat % 16)] := by
                      simp [jsonEscapeChar, h1, h2, h3, h4, h5, h6, h7, h8, String.data_append]
                    rw [hdata]
                    simp only [List.cons_append, List.nil_append]
                    rw [pJString_cons_u '0' '0' (Nat.digitChar (c.toNat / 16))
                        (Nat.digitChar (c.toNat % 16)) 0 0 (c.toNat / 16) (c.toNat % 16) _
                        rfl rfl (hexDigitVal_digitChar _ (by omega))
                        (hexDigitVal_digitChar _ (by omega)), ih rest]
                    have hval : 16 * (c.toNat / 16) + c.toNat % 16 = c.toNat :=
                      Nat.div_add_mod c.toNat 16
                    simp [hval, Char.ofNat_toNat]
                  · have hdata : (jsonEscapeChar c).data = [c] := by
                      simp [jsonEscapeChar, h1, h2, h3, h4, h5, h6, h7, h8]
                    rw [hdata]
                    simp only [List.cons_append, List.nil_append]
                    rw [pJString_cons_plain c _ h1 h2 h8, ih rest]
                    rfl

/-- Escaped string literals are prefix-determined: if two escaped literals
(with arbitrary continuations) agree as character sequences, the underlying
strings and the continuations agree. -/
theorem jsonEscape_prefix_inj (t1 t2 : String) (r1 r2 : List Char)
    (h : (jsonEscape t1).data ++ r1 = (jsonEscape t2).data ++ r2) : t1 = t2 ∧ r1 = r2 := by
  rw [jsonEscape_data, jsonEscape_data] at h
  simp only [List.cons_append, List.append_assoc, List.singleton_append,
    List.nil_append] at h
  injection h with _ h'
  have e1 := pJString_encode t1.data r1
  rw [h'] at e1
  rw [pJString_encode t2.data r2] at e1
  simp at e1
  exact ⟨String.ext e1.1.symm, e1.2.symm⟩

/-- `String.intercalate.go acc s l` extends its accumulator on the right. -/
theorem intercalate_go_exists :
    ∀ (l : List String) (acc s : String),
      ∃ r : String, String.intercalate.go acc s l = acc ++ r := by
  intro l
  induction l with
  | nil => intro acc s; exact ⟨"", (String.append_empty acc).symm⟩
  | cons b bs ih =>
    intro acc s
    obtain ⟨r, hr⟩ := ih (acc ++ s ++ b) s
    refine ⟨s ++ b ++ r, ?_⟩
    rw [show String.intercalate.go acc s (b :: bs) =
        String.intercalate.go (acc ++ s ++ b) s bs from rfl, hr]
    simp [String.append_assoc]

theorem c2_det (t1 t2 : String) (c1 o1 c2 o2 : JsValue)
    (h : jsonStringify (.obj [("type", .str t1), ("content", c1), ("options", o1)]) =
      jsonStringify (.obj [("type", .str t2), ("content", c2), ("options", o2)])) :
    generateCacheKey (.obj [("type", .str t1), ("content", c1), ("options", o1)]) =
      generateCacheKey (.obj [("type", .str t2), ("content", c2), ("options", o2)]) := by
  obtain ⟨R1, hR1⟩ := intercalate_go_exists (stringifyFields [("content", c1), ("options", o1)])
    (jsonEscape "type" ++ ":" ++ jsonEscape t1) ","
  obtain ⟨R2, hR2⟩ := intercalate_go_exists (stringifyFields [("content", c2), ("options", o2)])
    (jsonEscape "type" ++ ":" ++ jsonEscape t2) ","
  have h1 : jsonStringify (.obj [("type", JsValue.str t1), ("content", c1), ("options", o1)]) =
      some ("\x7b" ++ ((jsonEscape "type" ++ ":" ++ jsonEscape t1) ++ R1) ++ "\x7d") := by
    rw [show jsonStringify (.obj [("type", JsValue.str t1), ("content", c1), ("options", o1)]) =
        some ("\x7b" ++ String.intercalate.go (jsonEscape "type" ++ ":" ++ jsonEscape t1) ","
          (stringifyFields [("content", c1), ("options", o1)]) ++ "\x7d") from rfl, hR1]
  have h2 : jsonStringify (.obj [("type", JsValue.str t2), ("content", c2), ("options", o2)]) =
      some ("\x7b" ++ ((jsonEscape "type" ++ ":" ++ jsonEscape t2) ++ R2) ++ "\x7d") := by
    rw [show jsonStringify (.obj [("type", JsValue.str t2), ("content", c2), ("options", o2)]) =
        some ("\x7b" ++ String.intercalate.go (jsonEscape "type" ++ ":" ++ jsonEscape t2) ","
          (stringifyFields [("content", c2), ("options", o2)]) ++ "\x7d") from rfl, hR2]
  rw [h1, h2] at h
  have hS := Option.some.inj h
  have hd := congrArg String.data hS
  simp only [String.data_append] at hd
  rw [show (jsonEscape "type").data = ['"', 't', 'y', 'p', 'e', '"'] from rfl] at hd
  simp only [List.append_assoc, List.cons_append, List.nil_append,
    List.singleton_append, List.cons.injEq, true_and] at hd
  obtain ⟨ht, -⟩ := jsonEscape_prefix_inj t1 t2 _ _ hd
  subst ht
  unfold generateCacheKey
  rw [show (JsValue.obj [("type", JsValue.str t1), ("content", c1),
      ("options", o1)]).getProp "type" = .str t1 from rfl,
    show (JsValue.obj [("type", JsValue.str t1), ("content", c2),
      ("options", o2)]).getProp "type" = .str t1 from rfl,
    h1, h2, hS]

/-- **C2 (amended).** The fingerprint is a pure, deterministic function of the
request's JSON serialization: the key is exactly
`"ai:" + type + ":" + hex(md5(utf8(JSON.stringify(request))))`, and any two
requests of the system's request shape `{type: string, content, options}` with
identical serialization receive identical keys — no side condition, because the
serialization pins the type string (escaped string literals are
prefix-determined). No canonicalization is performed: fields are hashed in
insertion order, so requests differing only in options key insertion order may
get different keys (see the counterexample). -/
theorem c2_amended :
    (∀ (t1 t2 : String) (c1 o1 c2 o2 : JsValue),
      jsonStringify (.obj [("type", .str t1), ("content", c1), ("options", o1)]) =
        jsonStringify (.obj [("type", .str t2), ("content", c2), ("options", o2)]) →
      generateCacheKey (.obj [("type", .str t1), ("content", c1), ("options", o1)]) =
        generateCacheKey (.obj [("type", .str t2), ("content", c2), ("options", o2)])) ∧
    (∀ r : JsValue, generateCacheKey r =
      "ai:" ++ jsToStringCoerce (r.getProp "type") ++ ":"
        ++ md5Hex (utf8Bytes ((jsonStringify r).getD "undefined"))) :=
  ⟨c2_det, fun _ => rfl⟩

/-- Witness for C2's amended determinism clause: two syntactically different
requests — one carries an `undefined`-valued options field, which
`JSON.stringify` drops — share a serialization, hence share a key. -/
theorem c2_amended_witness :
    jsonStringify (.obj [("type", .str "summarize"), ("content", .str "x"),
        ("options", .obj [("k", .undefined)])]) =
      jsonStringify (.obj [("type", .str "summarize"), ("content", .str "x"),
        ("options", .obj [])]) ∧
    generateCacheKey (.obj [("type", .str "summarize"), ("content", .str "x"),
        ("options", .obj [("k", .undefined)])]) =
      generateCacheKey (.obj [("type", .str "summarize"), ("content", .str "x"),
        ("options", .obj [])]) :=
  ⟨rfl, c2_amended.1 "summarize" "summarize" (.str "x") (.obj [("k", .undefined)])
    (.str "x") (.obj []) rfl⟩

/-! ## C1 — cache-aside correctness and idempotence -/

/-- Shape of a summarize run: one model call, then an object envelope. -/
theorem summarizeText_shape (gen : GenCall → Except JsError String) (now : Nat)
    (c o : JsValue) :
    (∃ e call, summarizeText gen now c o = (.error e, [.modelCall call])) ∨
    (∃ kvs call, summarizeText gen now c o = (.ok (.obj kvs), [.modelCall call])) := by
  simp only [summarizeText]
  split
  · exact Or.inl ⟨_, _, rfl⟩
  · exact Or.inr ⟨_, _, rfl⟩

/-- Shape of a sentiment run. -/
theorem analyzeSentiment_shape (gen : GenCall → Except JsError String) (now : Nat)
    (c : JsValue) :
    (∃ e call, analyzeSentiment gen now c = (.error e, [.modelCall call])) ∨
    (∃ kvs call, analyzeSentiment gen now c = (.ok (.obj kvs), [.modelCall call])) := by
  simp only [analyzeSentiment]
  split
  · exact Or.inl ⟨_, _, rfl⟩
  · exact Or.inr ⟨_, _, rfl⟩

/-- Shape of a keyword-extraction run. -/
theorem extractKeywords_shape (gen : GenCall → Except JsError String) (now : Nat)
    (c : JsValue) :
    (∃ e call, extractKeywords gen now c = (.error e, [.modelCall call], none)) ∨
    (∃ kvs call kw, extractKeywords gen now c = (.ok (.obj kvs), [.modelCall call], some kw)) := by
  simp only [extractKeywords]
  split
  · exact Or.inl ⟨_, _, rfl⟩
  · exact Or.inr ⟨_, _, _, rfl⟩

/-- Shape of a content-generation run. -/
theorem generateContentOp_shape (gen : GenCall → Except JsError String) (now : Nat)
    (c o : JsValue) :
    (∃ e call, generateContentOp gen now c o = (.error e, [.modelCall call])) ∨
    (∃ kvs call, generateContentOp gen now c o = (.ok (.obj kvs), [.modelCall call])) := by
  simp only [generateContentOp]
  split
  · exact Or.inl ⟨_, _, rfl⟩
  · exact Or.inr ⟨_, _, rfl⟩

/-- Shape of a translate run. -/
theorem translateText_shape (gen : GenCall → Except JsError String) (now : Nat)
    (c o : JsValue) :
    (∃ e call, translateText gen now c o = (.error e, [.modelCall call])) ∨
    (∃ kvs call, translateText gen now c o = (.ok (.obj kvs), [.modelCall call])) := by
  simp only [translateText]
  split
  · exact Or.inl ⟨_, _, rfl⟩
  · exact Or.inr ⟨_, _, rfl⟩

/-- Every dispatch outcome: an unsupported-type error with no events, or a
single model call followed by an error, or a single model call followed by an
object envelope. -/
theorem dispatch_shape (gen : GenCall → Except JsError String) (now : Nat)
    (request : JsValue) :
    (∃ e, dispatch gen now request = (.error e, [])) ∨
    (∃ e call, dispatch gen now request = (.error e, [.modelCall call])) ∨
    (∃ kvs call, dispatch gen now request = (.ok (.obj kvs), [.modelCall call])) := by
  unfold dispatch
  split
  · rcases summarizeText_shape gen now (request.getProp "content") (request.getProp "options")
      with ⟨e, call, h⟩ | ⟨kvs, call, h⟩
    · exact Or.inr (Or.inl ⟨e, call, h⟩)
    · exact Or.inr (Or.inr ⟨kvs, call, h⟩)
  · rcases analyzeSentiment_shape gen now (request.getProp "content")
      with ⟨e, call, h⟩ | ⟨kvs, call, h⟩
    · exact Or.inr (Or.inl ⟨e, call, h⟩)
    · exact Or.inr (Or.inr ⟨kvs, call, h⟩)
  · rcases extractKeywords_shape gen now (request.getProp "content")
      with ⟨e, call, h⟩ | ⟨kvs, call, kw, h⟩
    · exact Or.inr (Or.inl ⟨e, call, by rw [h]⟩)
    · exact Or.inr (Or.inr ⟨kvs, call, by rw [h]⟩)
  · rcases generateContentOp_shape gen now (request.getProp "content") (request.getProp "options")
      with ⟨e, call, h⟩ | ⟨kvs, call, h⟩
    · exact Or.inr (Or.inl ⟨e, call, h⟩)
    · exact Or.inr (Or.inr ⟨kvs, call, h⟩)
  · rcases translateText_shape gen now (request.getProp "content") (request.getProp "options")
      with ⟨e, call, h⟩ | ⟨kvs, call, h⟩
    · exact Or.inr (Or.inl ⟨e, call, h⟩)
    · exact Or.inr (Or.inr ⟨kvs, call, h⟩)
  · exact Or.inl ⟨_, rfl⟩

/-- A successful dispatch yields an object envelope and exactly one model call. -/
theorem dispatch_ok_inv (gen : GenCall → Except JsError String) (now : Nat)
    (request v : JsValue) (evs : List Event)
    (h : dispatch gen now request = (.ok v, evs)) :
    (∃ kvs, v = .obj kvs) ∧ countModelCalls evs = 1 := by
  rcases dispatch_shape gen now request with ⟨e, hd⟩ | ⟨e, call, hd⟩ | ⟨kvs, call, hd⟩ <;>
    rw [hd] at h <;> rw [Prod.mk.injEq] at h <;> obtain ⟨h1, h2⟩ := h
  · simp at h1
  · simp at h1
  · rw [Except.ok.injEq] at h1
    refine ⟨⟨kvs, h1.symm⟩, ?_⟩
    rw [← h2]
    simp [countModelCalls]

/-- A serialized object envelope is never the empty string. -/
theorem stringify_obj_getD_ne_empty (kvs : List (String × JsValue)) (d : String) :
    (jsonStringify (.obj kvs)).getD d ≠ "" := by
  simp only [jsonStringify, Option.getD_some]
  intro h
  have hlen := congrArg String.length h
  simp [String.length_append] at hlen
  exact absurd hlen.1.1 (by decide)

/-- **C1.** Cache-aside correctness. First conjunct: on a (truthy) cache hit
the result is the deserialized cached text, the state is untouched, and the
trace is a single cache read — the model capability is not invoked. Second
conjunct: starting from a miss (cache reachable and healthy), a successful
`process(r)` invokes the model at most once, and a second `process(r)` within
the TTL window invokes the model not at all and returns exactly the
deserialization of the first call's serialized result. -/
theorem c1_cache_aside_idempotence :
    (∀ (gen : GenCall → Except JsError String) (st : RedisState) (now : Nat)
        (request : JsValue) (s : String),
      st.connected = true → st.failGet = false →
      serviceGet st now (generateCacheKey request) = some s → s ≠ "" →
      processContent gen st now request =
        (jsonParse s, st, [.cacheGet (generateCacheKey request) (some s)]) ∧
      countModelCalls (processContent gen st now request).2.2 = 0) ∧
    (∀ (gen : GenCall → Except JsError String) (st : RedisState) (t1 t2 : Nat)
        (request v1 : JsValue) (st1 : RedisState) (tr1 : List Event),
      st.connected = true → st.failGet = false → st.failSet = false →
      serviceGet st t1 (generateCacheKey request) = none →
      processContent gen st t1 request = (.ok v1, st1, tr1) →
      t2 < t1 + 3600 →
      countModelCalls tr1 ≤ 1 ∧
      countModelCalls (processContent gen st1 t2 request).2.2 = 0 ∧
      (processContent gen st1 t2 request).1 =
        jsonParse ((jsonStringify v1).getD "undefined")) := by
  constructor
  · intro gen st now request s hconn hfg hget hs
    have heq : processContent gen st now request =
        (jsonParse s, st, [.cacheGet (generateCacheKey request) (some s)]) := by
      simp only [processContent, hget]
      rw [if_neg hs]
    exact ⟨heq, by rw [heq]; simp [countModelCalls]⟩
  · intro gen st t1 t2 request v1 st1 tr1 hconn hfg hfs hmiss h1 httl
    simp only [processContent, hmiss, processMiss] at h1
    rcases hdisp : dispatch gen t1 request with ⟨res, evs⟩
    rw [hdisp] at h1
    cases res with
    | error e => simp at h1
    | ok v =>
      obtain ⟨⟨kvs, hkvs⟩, hcount⟩ := dispatch_ok_inv gen t1 request v evs hdisp
      simp [serviceSet, clientSet, hconn, hfs] at h1
      obtain ⟨hv, hst, htr⟩ := h1
      subst hv
      have hget2 : serviceGet st1 t2 (generateCacheKey request) =
          some ((jsonStringify v).getD "undefined") := by
        rw [← hst]
        simp [serviceGet, clientGet, hconn, hfg, httl]
      have hs2 : (jsonStringify v).getD "undefined" ≠ "" := by
        rw [hkvs]
        exact stringify_obj_getD_ne_empty kvs _
      have heq2 : processContent gen st1 t2 request =
          (jsonParse ((jsonStringify v).getD "undefined"), st1,
            [.cacheGet (generateCacheKey request)
              (some ((jsonStringify v).getD "undefined"))]) := by
        simp only [processContent, hget2]
        rw [if_neg hs2]
      refine ⟨?_, ?_, ?_⟩
      · have hct : countModelCalls tr1 = countModelCalls evs := by
          rw [← htr]
          simp [countModelCalls, List.countP_cons, List.countP_append]
        rw [hct, hcount]
      · rw [heq2]
        simp [countModelCalls]
      · rw [heq2]

/-- The concrete scenario of spec §8: a translate request to French. -/
def reqT : JsValue :=
  .obj [("type", .str "translate"), ("content", .str "Hello world!"),
    ("options", .obj [("targetLanguage", .str "French")])]

/-- Witness for C1: running the translate request twice against a cold,
healthy cache — the first call populates the cache (one model call), the second
is served from it (zero model calls) and equals the deserialized first result. -/
theorem c1_cache_aside_idempotence_witness :
    ((st0.connected = true ∧ st0.failGet = false ∧ st0.failSet = false) ∧
      serviceGet st0 0 (generateCacheKey reqT) = none ∧
      processContent (genOk "Hola mundo") st0 0 reqT =
        (.ok (okValue (processContent (genOk "Hola mundo") st0 0 reqT).1),
          (processContent (genOk "Hola mundo") st0 0 reqT).2.1,
          (processContent (genOk "Hola mundo") st0 0 reqT).2.2) ∧
      (1 : Nat) < 0 + 3600) ∧
    (countModelCalls (processContent (genOk "Hola mundo") st0 0 reqT).2.2 ≤ 1 ∧
      countModelCalls (processContent (genOk "Hola mundo")
        ((processContent (genOk "Hola mundo") st0 0 reqT).2.1) 1 reqT).2.2 = 0 ∧
      (processContent (genOk "Hola mundo")
        ((processContent (genOk "Hola mundo") st0 0 reqT).2.1) 1 reqT).1 =
        jsonParse ((jsonStringify
          (okValue (processContent (genOk "Hola mundo") st0 0 reqT).1)).getD "undefined")) :=
  ⟨⟨⟨rfl, rfl, rfl⟩, rfl, rfl, by norm_num⟩,
    c1_cache_aside_idempotence.2 (genOk "Hola mundo") st0 0 1 reqT
      (okValue (processContent (genOk "Hola mundo") st0 0 reqT).1)
      ((processContent (genOk "Hola mundo") st0 0 reqT).2.1)
      ((processContent (genOk "Hola mundo") st0 0 reqT).2.2)
      rfl rfl rfl rfl rfl (by norm_num)⟩

/-! ## C4/C5 — batch executor: ordering and fail-fast -/

/-- A successful window run equals in-order sequential processing and is
length-preserving. -/
theorem windowRun_ok (gen : GenCall → Except JsError String) (now : Nat) :
    ∀ (ws : List JsValue) (st : RedisState) (vs : List JsValue) (st1 : RedisState)
      (tr : List Event),
      windowRun gen now st ws = (.ok vs, st1, tr) →
      processAllSeq gen now st ws = (.ok vs, st1) ∧ vs.length = ws.length := by
  intro ws
  induction ws with
  | nil =>
    intro st vs st1 tr h
    simp [windowRun] at h
    obtain ⟨h1, h2, h3⟩ := h
    subst h1; subst h2
    simp [processAllSeq]
  | cons r rs ih =>
    intro st vs st1 tr h
    rcases hp : processContent gen st now r with ⟨res, stA, trA⟩
    rcases hw : windowRun gen now stA rs with ⟨resR, stB, trB⟩
    simp only [windowRun, hp, hw] at h
    cases res with
    | error e => cases resR <;> simp at h
    | ok v =>
      cases resR with
      | error e => simp at h
      | ok vsR =>
        simp at h
        obtain ⟨hvs, hst, htr⟩ := h
        obtain ⟨hseq, hlen⟩ := ih stA vsR stB trB hw
        subst hvs; subst hst
        constructor
        · simp only [processAllSeq, hp, hseq]
        · simp [hlen]

/-- One-step unfolding of sequential processing on a cons cell. -/
theorem processAllSeq_cons (gen : GenCall → Except JsError String) (now : Nat)
    (st : RedisState) (r : JsValue) (rs : List JsValue) :
    processAllSeq gen now st (r :: rs) =
      (match processContent gen st now r with
        | (.ok v, st1, _) =>
          (match processAllSeq gen now st1 rs with
            | (.ok vs, st2) => (.ok (v :: vs), st2)
            | (.error e, st2) => (.error e, st2))
        | (.error e, st1, _) => (.error e, st1)) := rfl

/-- Sequential processing splits over list concatenation (successful head). -/
theorem processAllSeq_append (gen : GenCall → Except JsError String) (now : Nat) :
    ∀ (xs : List JsValue) (st : RedisState) (vs1 : List JsValue) (st1 : RedisState)
      (ys : List JsValue),
      processAllSeq gen now st xs = (.ok vs1, st1) →
      processAllSeq gen now st (xs ++ ys) =
        (match processAllSeq gen now st1 ys with
          | (.ok vs2, st2) => (.ok (vs1 ++ vs2), st2)
          | (.error e, st2) => (.error e, st2)) := by
  intro xs
  induction xs with
  | nil =>
    intro st vs1 st1 ys h
    simp [processAllSeq] at h
    obtain ⟨h1, h2⟩ := h
    subst h1; subst h2
    simp only [List.nil_append]
    rcases hys : processAllSeq gen now st ys with ⟨r, s⟩
    cases r <;> simp [hys]
  | cons r rs ih =>
    intro st vs1 st1 ys h
    rcases hp : processContent gen st now r with ⟨res, stA, trA⟩
    simp only [processAllSeq_cons, hp] at h
    cases res with
    | error e => simp at h
    | ok v =>
      simp only at h
      rcases hs : processAllSeq gen now stA rs with ⟨resR, stB⟩
      rw [hs] at h
      cases resR with
      | error e => simp at h
      | ok vsR =>
        simp at h
        obtain ⟨hvs, hst⟩ := h
        subst hvs; subst hst
        rw [List.cons_append]
        simp only [processAllSeq_cons, hp]
        rw [ih stA vsR stB ys hs]
        rcases hys : processAllSeq gen now stB ys with ⟨r2, s2⟩
        cases r2 <;> simp

/-- A successful batch run equals in-order sequential processing of the whole
input and is length-preserving (strong induction over the window recursion). -/
theorem batchGo_ok (gen : GenCall → Except JsError String) (now : Nat) :
    ∀ (n : Nat) (st : RedisState) (pending : List JsValue) (i : Nat)
      (vs : List JsValue) (st' : RedisState) (tr : List Event),
      pending.length ≤ n →
      batchGo gen now st pending i = (.ok vs, st', tr) →
      processAllSeq gen now st pending = (.ok vs, st') ∧ vs.length = pending.length := by
  intro n
  induction n with
  | zero =>
    intro st pending i vs st' tr hlen h
    have hnil : pending = [] := List.length_eq_zero.mp (Nat.le_zero.mp hlen)
    subst hnil
    simp [batchGo] at h
    obtain ⟨h1, h2, h3⟩ := h
    subst h1; subst h2
    simp [processAllSeq]
  | succ n ih =>
    intro st pending i vs st' tr hlen h
    rcases pending with _ | ⟨r1, _ | ⟨r2, _ | ⟨r3, _ | ⟨r4, _ | ⟨r5, rest⟩⟩⟩⟩⟩
    · simp [batchGo] at h
      obtain ⟨h1, h2, h3⟩ := h
      subst h1; subst h2
      simp [processAllSeq]
    · rcases hw : windowRun gen now st [r1] with ⟨res, st1, tr1⟩
      simp [batchGo, hw] at h
      cases res with
      | error e => simp at h
      | ok vs1 =>
        simp at h
        obtain ⟨h1, h2, h3⟩ := h
        subst h1; subst h2
        exact windowRun_ok gen now [r1] st vs1 st1 tr1 hw
    · rcases hw : windowRun gen now st [r1, r2] with ⟨res, st1, tr1⟩
      simp [batchGo, hw] at h
      cases res with
      | error e => simp at h
      | ok vs1 =>
        simp at h
        obtain ⟨h1, h2, h3⟩ := h
        subst h1; subst h2
        exact windowRun_ok gen now [r1, r2] st vs1 st1 tr1 hw
    · rcases hw : windowRun gen now st [r1, r2, r3] with ⟨res, st1, tr1⟩
      simp [batchGo, hw] at h
      cases res with
      | error e => simp at h
      | ok vs1 =>
        simp at h
        obtain ⟨h1, h2, h3⟩ := h
        subst h1; subst h2
        exact windowRun_ok gen now [r1, r2, r3] st vs1 st1 tr1 hw
    · rcases hw : windowRun gen now st [r1, r2, r3, r4] with ⟨res, st1, tr1⟩
      simp [batchGo, hw] at h
      cases res with
      | error e => simp at h
      | ok vs1 =>
        simp at h
        obtain ⟨h1, h2, h3⟩ := h
        subst h1; subst h2
        exact windowRun_ok gen now [r1, r2, r3, r4] st vs1 st1 tr1 hw
    · rcases hw : windowRun gen now st [r1, r2, r3, r4, r5] with ⟨res, st1, tr1⟩
      simp [batchGo, hw] at h
      cases res with
      | error e => simp at h
      | ok vs1 =>
        rcases hrec : batchGo gen now st1 rest (i + 5) with ⟨resR, st2, tr2⟩
        rw [hrec] at h
        cases resR with
        | error e => simp at h
        | ok vs2 =>
          simp at h
          obtain ⟨h1, h2, h3⟩ := h
          subst h1; subst h2
          have hlen5 : rest.length ≤ n := by
            simp [List.length_cons] at hlen
            omega
          obtain ⟨hseq1, hl1⟩ := windowRun_ok gen now [r1, r2, r3, r4, r5] st vs1 st1 tr1 hw
          obtain ⟨hseq2, hl2⟩ := ih st1 rest (i + 5) vs2 st2 tr2 hlen5 hrec
          constructor
          · have hsplit : r1 :: r2 :: r3 :: r4 :: r5 :: rest =
                [r1, r2, r3, r4, r5] ++ rest := rfl
            rw [hsplit, processAllSeq_append gen now [r1, r2, r3, r4, r5] st vs1 st1 rest hseq1,
              hseq2]
          · simp only [List.length_append, List.length_cons, List.length_nil, hl1, hl2]
            omega

/-- Whenever the batch loop fails, the underlying error's message is logged
together with its window index (strong induction over the window recursion). -/
theorem batchGo_err (gen : GenCall → Except JsError String) (now : Nat) :
    ∀ (n : Nat) (st : RedisState) (pending : List JsValue) (i : Nat)
      (e : JsError) (st' : RedisState) (tr : List Event),
      pending.length ≤ n →
      batchGo gen now st pending i = (.error e, st', tr) →
      ∃ w, Event.batchErrorLog w e.message ∈ tr := by
  intro n
  induction n with
  | zero =>
    intro st pending i e st' tr hlen h
    have hnil : pending = [] := List.length_eq_zero.mp (Nat.le_zero.mp hlen)
    subst hnil
    simp [batchGo] at h
  | succ n ih =>
    intro st pending i e st' tr hlen h
    rcases pending with _ | ⟨r1, _ | ⟨r2, _ | ⟨r3, _ | ⟨r4, _ | ⟨r5, rest⟩⟩⟩⟩⟩
    · simp [batchGo] at h
    · rcases hw : windowRun gen now st [r1] with ⟨res, st1, tr1⟩
      simp [batchGo, hw] at h
      cases res with
      | error e0 =>
        simp at h
        obtain ⟨h1, h2, h3⟩ := h
        subst h1
        refine ⟨i / 5, ?_⟩
        rw [← h3]
        simp
      | ok vs1 => simp at h
    · rcases hw : windowRun gen now st [r1, r2] with ⟨res, st1, tr1⟩
      simp [batchGo, hw] at h
      cases res with
      | error e0 =>
        simp at h
        obtain ⟨h1, h2, h3⟩ := h
        subst h1
        refine ⟨i / 5, ?_⟩
        rw [← h3]
        simp
      | ok vs1 => simp at h
    · rcases hw : windowRun gen now st [r1, r2, r3] with ⟨res, st1, tr1⟩
      simp [batchGo, hw] at h
      cases res with
      | error e0 =>
        simp at h
        obtain ⟨h1, h2, h3⟩ := h
        subst h1
        refine ⟨i / 5, ?_⟩
        rw [← h3]
        simp
      | ok vs1 => simp at h
    · rcases hw : windowRun gen now st [r1, r2, r3, r4] with ⟨res, st1, tr1⟩
      simp [batchGo, hw] at h
      cases res with
      | error e0 =>
        simp at h
        obtain ⟨h1, h2, h3⟩ := h
        subst h1
        refine ⟨i / 5, ?_⟩
        rw [← h3]
        simp
      | ok vs1 => simp at h
    · rcases hw : windowRun gen now st [r1, r2, r3, r4, r5] with ⟨res, st1, tr1⟩
      simp [batchGo, hw] at h
      cases res with
      | error e0 =>
        simp at h
        obtain ⟨h1, h2, h3⟩ := h
        subst h1
        refine ⟨i / 5, ?_⟩
        rw [← h3]
        simp
      | ok vs1 =>
        rcases hrec : batchGo gen now st1 rest (i + 5) with ⟨resR, st2, tr2⟩
        rw [hrec] at h
        cases resR with
        | ok vs2 => simp at h
        | error e0 =>
          simp at h
          obtain ⟨h1, h2, h3⟩ := h
          subst h1
          have hlen5 : rest.length ≤ n := by
            simp [List.length_cons] at hlen
            omega
          obtain ⟨w, hm⟩ := ih st1 rest (i + 5) e0 st2 tr2 hlen5 hrec
          refine ⟨w, ?_⟩
          rw [← h3]
          simp [hm]

/-- **C5.** When every request succeeds, `batchProcess` — which partitions the
input into consecutive windows of fixed size 5, executed window after window —
returns a sequence of the same length as the input equal to processing the
requests one by one in original input order (never completion order): element
`i` is the processing result of request `i` under the state reached so far. -/
theorem c5_batch_ordering (gen : GenCall → Except JsError String) (st : RedisState)
    (now : Nat) (requests vs : List JsValue) (st' : RedisState) (tr : List Event)
    (h : batchProcess gen st now requests = (.ok vs, st', tr)) :
    vs.length = requests.length ∧
    processAllSeq gen now st requests = (.ok vs, st') := by
  obtain ⟨hseq, hlen⟩ := batchGo_ok gen now requests.length st requests 0 vs st' tr
    (Nat.le_refl _) h
  exact ⟨hlen, hseq⟩

/-- A translate request with the given content (batch test shape). -/
def mkTranslateReq (c : String) : JsValue :=
  .obj [("type", .str "translate"), ("content", .str c), ("options", .obj [])]

/-- Three distinct requests for the batch-ordering witness. -/
def reqs3 : List JsValue := [mkTranslateReq "a", mkTranslateReq "b", mkTranslateReq "c"]

/-- Witness for C5: a three-request batch returns three results equal to
in-order sequential processing. -/
theorem c5_batch_ordering_witness :
    batchProcess (genOk "T") st0 0 reqs3 =
      (.ok (okList (batchProcess (genOk "T") st0 0 reqs3).1),
        (batchProcess (genOk "T") st0 0 reqs3).2.1,
        (batchProcess (genOk "T") st0 0 reqs3).2.2) ∧
    ((okList (batchProcess (genOk "T") st0 0 reqs3).1).length = reqs3.length ∧
      processAllSeq (genOk "T") 0 st0 reqs3 =
        (.ok (okList (batchProcess (genOk "T") st0 0 reqs3).1),
          (batchProcess (genOk "T") st0 0 reqs3).2.1)) :=
  ⟨rfl, c5_batch_ordering (genOk "T") st0 0 reqs3
    (okList (batchProcess (genOk "T") st0 0 reqs3).1)
    ((batchProcess (genOk "T") st0 0 reqs3).2.1)
    ((batchProcess (genOk "T") st0 0 reqs3).2.2) rfl⟩

/-- A model capability that fails (with "boom") exactly on the request whose
prompt mentions `c2`. -/
def genBoom : GenCall → Except JsError String := fun c =>
  match c.contents with
  | .str p => if strContains p "c2" then .error ⟨"boom"⟩ else .ok "T"
  | _ => .ok "T"

/-- Seven requests (batch size 5 gives two windows); the 2nd fails. -/
def reqs7 : List JsValue :=
  [mkTranslateReq "c1", mkTranslateReq "c2", mkTranslateReq "c3", mkTranslateReq "c4",
   mkTranslateReq "c5", mkTranslateReq "c6", mkTranslateReq "c7"]

/-- **C4 (counterexample).** With 7 requests where the 2nd fails ("boom"),
`batchProcess` fails — but with the *raw underlying error* `⟨"boom"⟩`, not a
wrapper carrying the window index: the error's message is exactly "boom" (it
does not even contain the digit 0). The failing window's index appears only in
the error log, whose sole entry is `(0, "boom")`. -/
theorem c4_counterexample :
    (batchProcess genBoom st0 0 reqs7).1 = .error ⟨"boom"⟩ ∧
    ((batchProcess genBoom st0 0 reqs7).2.2.filterMap (fun ev =>
      match ev with
      | .batchErrorLog w m => some (w, m)
      | _ => none)) = [(0, "boom")] ∧
    strContains "boom" "0" = false :=
  ⟨rfl, rfl, rfl⟩

/-- **C4 (amended).** When any window of a batch fails, the whole call fails by
rethrowing the underlying error unchanged, no result list is returned for any
request, and the failing window's index is recorded (with the error's message)
in the error log — the index is logged, not carried on the thrown error. -/
theorem c4_amended_failfast (gen : GenCall → Except JsError String) (st : RedisState)
    (now : Nat) (requests : List JsValue) (e : JsError) (st' : RedisState) (tr : List Event)
    (h : batchProcess gen st now requests = (.error e, st', tr)) :
    (∀ vs stx trx, batchProcess gen st now requests ≠ (.ok vs, stx, trx)) ∧
    ∃ w, Event.batchErrorLog w e.message ∈ tr := by
  constructor
  · intro vs stx trx hcontra
    rw [h] at hcontra
    simp at hcontra
  · exact batchGo_err gen now requests.length st requests 0 e st' tr (Nat.le_refl _) h

/-- Witness for C4's amended theorem on the concrete two-window scenario. -/
theorem c4_amended_failfast_witness :
    batchProcess genBoom st0 0 reqs7 =
      (.error ⟨"boom"⟩, (batchProcess genBoom st0 0 reqs7).2.1,
        (batchProcess genBoom st0 0 reqs7).2.2) ∧
    ((∀ vs stx trx, batchProcess genBoom st0 0 reqs7 ≠ (.ok vs, stx, trx)) ∧
      ∃ w, Event.batchErrorLog w (JsError.mk "boom").message ∈
        (batchProcess genBoom st0 0 reqs7).2.2) :=
  ⟨rfl, c4_amended_failfast genBoom st0 0 reqs7 ⟨"boom"⟩
    ((batchProcess genBoom st0 0 reqs7).2.1) ((batchProcess genBoom st0 0 reqs7).2.2) rfl⟩
